import Mathlib

/-!
Verification of the request-statistics aggregator of `stats_rs`
(`src/lib.rs` and `src/entity.rs`), shallowly embedded in Lean.

Embedding conventions:
* Rust `i64` is embedded as `Int` (the counters only ever move away from 0
  by single increments, so two's-complement wrap-around is unreachable for
  the traces considered here) and `u16` as `Nat`.
* Rust `f64` arithmetic on the derived rates is embedded as exact `ℚ`
  arithmetic; `f64::round` (ties away from zero) is `f64Round` below.
  A division whose divisor is `0.0` produces a non-finite `f64`
  (NaN or an infinity); such a result is embedded as `none : Option ℚ`.
* `std::collections::HashMap` is embedded as an association list with
  insert-replaces semantics (`alistInsert`); the `entry(k).or_insert(0) += 1`
  idiom of `update_stats` is `hmIncr`.
* `get_now_millis()` / the clock are side effects: every embedded operation
  that reads the clock takes the current time as an explicit argument.
* `run_test_tcp` performs real TCP connects; it is abstracted as an oracle
  `probe : String → Option Nat` returning the elapsed connect time in
  microseconds on success (`Ok`) and `none` on any failure (`Err`:
  address-parse failure, refused connection, or timeout).
-/

namespace StatsRs

/-- Enum `RequestResult` from `src/entity.rs`. -/
inductive RequestResult
  | Successful
  | SuccessfulAndCache
  | ParseError
  | TimeoutError
  | ConnectionError
  | StatusCodeError
deriving DecidableEq, Repr

/-- Association-list lookup, modelling `HashMap` key lookup. -/
def alistGet {α β : Type} [DecidableEq α] : List (α × β) → α → Option β
  | [], _ => none
  | p :: rest, k => if p.1 = k then some p.2 else alistGet rest k

/-- Association-list insert with replacement, modelling `HashMap::insert`. -/
def alistInsert {α β : Type} [DecidableEq α] : List (α × β) → α → β → List (α × β)
  | [], k, v => [(k, v)]
  | p :: rest, k, v => if p.1 = k then (k, v) :: rest else p :: alistInsert rest k v

/-- Operation `*map.entry(k).or_insert(0) += 1` from `InnerStats::update_stats`. -/
def hmIncr {α : Type} [DecidableEq α] (l : List (α × Int)) (k : α) : List (α × Int) :=
  alistInsert l k ((alistGet l k).getD 0 + 1)

/-- The counter fields of `InnerStatsVal` (`src/lib.rs`, lines 249-268). -/
structure InnerStatsVal where
  total_requests : Int
  successful_requests : Int
  cache_hit : Int
  parse_errors : Int
  timeout_errors : Int
  connection_errors : Int
  status_code_error : Int
  http_status_codes : List (Nat × Int)
  total_latency : Int
deriving DecidableEq, Repr

/-- Value `Default::default()` for `InnerStatsVal`: all counters zero, empty map. -/
def InnerStatsVal.default : InnerStatsVal :=
  ⟨0, 0, 0, 0, 0, 0, 0, [], 0⟩

/-- Method `InnerStats::update_stats` (`src/lib.rs`, lines 282-328), acting on the
`InnerStatsVal` that the method reaches through `DerefMut`. -/
def InnerStatsVal.update_stats (s : InnerStatsVal) (request_time response_time : Int)
    (status_code : Nat) (result : RequestResult) : InnerStatsVal :=
  let s := { s with
    total_requests := s.total_requests + 1,
    total_latency := s.total_latency + (response_time - request_time) }
  let s := if status_code ≠ 0 then
      { s with http_status_codes := hmIncr s.http_status_codes status_code }
    else s
  match result with
  | .Successful => { s with successful_requests := s.successful_requests + 1 }
  | .SuccessfulAndCache => { s with
      successful_requests := s.successful_requests + 1,
      cache_hit := s.cache_hit + 1 }
  | .ParseError => { s with parse_errors := s.parse_errors + 1 }
  | .TimeoutError => { s with timeout_errors := s.timeout_errors + 1 }
  | .ConnectionError => { s with connection_errors := s.connection_errors + 1 }
  | .StatusCodeError => { s with status_code_error := s.status_code_error + 1 }

/-- Struct `InnerStats` (`src/lib.rs`, lines 227-234): the counters plus the two
millisecond timestamps. -/
structure InnerStats where
  init_time : Int
  start_time : Int
  base : InnerStatsVal
deriving DecidableEq, Repr

/-- Constructor `InnerStats::new` (`src/lib.rs`, lines 272-279); `current_time` stands for
the `get_now_millis()` call. -/
def InnerStats.new (current_time : Int) : InnerStats :=
  ⟨current_time, current_time, InnerStatsVal.default⟩

/-- Method `InnerStats::update_stats` through `DerefMut`: only `base` changes. -/
def InnerStats.update_stats (s : InnerStats) (request_time response_time : Int)
    (status_code : Nat) (result : RequestResult) : InnerStats :=
  { s with base := s.base.update_stats request_time response_time status_code result }

/-- Method `InnerStats::reset` (`src/lib.rs`, lines 398-401): `base` back to default,
timestamps untouched. -/
def InnerStats.reset (s : InnerStats) : InnerStats :=
  { s with base := InnerStatsVal.default }

/-- Rust `f64::round`: nearest integer, ties rounded away from zero
(`round q = -round (-q)` for negative `q`). Phrased with the executable
`Rat.floor` so that concrete reports evaluate inside the kernel; the bridge
to `Int.floor` is `f64Round_eq` below. -/
def f64Round (q : ℚ) : Int :=
  if 0 ≤ q.num then (q + 1 / 2).floor else -((-q + 1 / 2).floor)

/-- Rounding `(x * 1000.0).round() / 1000.0`: round to 3 decimal places. -/
def round3 (q : ℚ) : ℚ :=
  (f64Round (q * 1000) : ℚ) / 1000

/-- Division on `f64` with the non-finite outcomes made explicit: dividing by
`0.0` yields NaN or an infinity, embedded as `none`. -/
def f64Div (a b : ℚ) : Option ℚ :=
  if b = 0 then none else some (a / b)

/-- Rust `i64` division: truncated toward zero. -/
def i64Div (a b : Int) : Int :=
  Int.tdiv a b

/-- Struct `TimePeriod` from `src/entity.rs`. -/
structure TimePeriod where
  start : Int
  «end» : Int
deriving DecidableEq, Repr

/-- Struct `ExceptionTypes` from `src/entity.rs`. -/
structure ExceptionTypes where
  connection_error : Int
  timeout_error : Int
  parse_error : Int
  status_code_error : Int
deriving DecidableEq, Repr

/-- Struct `Stats` from `src/entity.rs`, restricted to the fields the aggregator
computes. The `base` reference and `system_resources` are opaque
pass-throughs (identity callback data and an OS sampling side effect) and
carry no aggregator state, so they are omitted from the embedding. -/
structure Stats where
  time_period : TimePeriod
  error_rate : ℚ
  exception_types : ExceptionTypes
  runtime_duration : Int
  total_requests : Int
  cache_hit_rate : ℚ
  cache_hit : Int
  http_status_codes : List (String × Int)
  average_request_latency : Option ℚ
  hosts_ping_delay : List (String × ℚ)
deriving DecidableEq, Repr

/-- Method `InnerStats::to_stats_and_reset` (`src/lib.rs`, lines 331-396);
`end_time` stands for the `get_now_millis()` call. Returns the built
`Stats` and the successor state (only `start_time` changes here; the
counters are cleared by the separate `reset` call). Note line 373 of the
source: `average_latency` divides by `total_requests` with no zero guard
(non-finite when `total_requests == 0`, embedded as `none`) and then
divides by a further `1000.0`. -/
def InnerStats.to_stats_and_reset (s : InnerStats) (end_time : Int) : Stats × InnerStats :=
  let v := s.base
  let time_period : TimePeriod := ⟨s.start_time, end_time⟩
  let s1 := { s with start_time := end_time }
  let exception_types : ExceptionTypes :=
    ⟨v.connection_errors, v.timeout_errors, v.parse_errors, v.status_code_error⟩
  let error_rate : ℚ :=
    if v.total_requests > 0 then
      ((v.parse_errors + v.timeout_errors + v.connection_errors
          + v.status_code_error : Int) : ℚ) / (v.total_requests : ℚ)
    else 0
  let runtime_duration := i64Div (end_time - s.init_time) 1000
  let cache_hit_rate : ℚ :=
    if v.successful_requests = 0 then 0
    else round3 ((v.cache_hit : ℚ) / (v.successful_requests : ℚ))
  let average_latency : Option ℚ :=
    (f64Div (v.total_latency : ℚ) (v.total_requests : ℚ)).map (fun q => q / 1000)
  (⟨time_period, round3 error_rate, exception_types, runtime_duration,
    v.total_requests, cache_hit_rate, v.cache_hit,
    v.http_status_codes.map (fun p => (Nat.repr p.1, p.2)),
    average_latency.map round3, []⟩, s1)

/-- The probe timeout of `RequestStats::to_stats_and_reset`
(`src/lib.rs`, line 202): `Duration::from_secs(3)`, i.e. `3_000_000` µs
(`timeout.as_micros()`), hard-coded independently of configuration. -/
def probeTimeoutMicros : Nat := 3000000

/-- The per-host body of the probe loop (`src/lib.rs`, lines 204-213): take
the connect time on success, the timeout in microseconds on failure, then
convert microseconds to milliseconds. -/
def pingMillis (probe : String → Option Nat) (host : String) : ℚ :=
  let connet_ts : Nat :=
    match probe host with
    | some d => d
    | none => probeTimeoutMicros
  (connet_ts : ℚ) / 1000

/-- The probe loop (`src/lib.rs`, lines 199-215): one `HashMap::insert` per
requested host. -/
def buildHostPing (probe : String → Option Nat) (hosts : List String) : List (String × ℚ) :=
  hosts.foldl (fun acc host => alistInsert acc host (pingMillis probe host)) []

/-- Method `RequestStats::to_stats_and_reset` (`src/lib.rs`, lines 192-224):
probe the hosts, snapshot the counters, reset them, attach the ping map. -/
def RequestStats.to_stats_and_reset (s : InnerStats) (end_time : Int)
    (host_info : Option (List String × Nat)) (probe : String → Option Nat) :
    Stats × InnerStats :=
  let host_ping : List (String × ℚ) :=
    match host_info with
    | some (hosts, _port) => buildHostPing probe hosts
    | none => []
  let d := (s.to_stats_and_reset end_time).1
  let s1 := (s.to_stats_and_reset end_time).2
  let s2 := s1.reset
  ({ d with hosts_ping_delay := host_ping }, s2)

/-- One call to the public `update_stats` entry point. -/
structure UpdateCall where
  request_time : Int
  response_time : Int
  status_code : Nat
  result : RequestResult
deriving DecidableEq, Repr

/-- Fold a sequence of `update_stats` calls over a counter state. -/
def InnerStatsVal.applyCalls (s : InnerStatsVal) (calls : List UpdateCall) : InnerStatsVal :=
  calls.foldl
    (fun s c => s.update_stats c.request_time c.response_time c.status_code c.result) s

/-- The counter state after a sequence of calls from a fresh (or just reset)
store. -/
def runCalls (calls : List UpdateCall) : InnerStatsVal :=
  InnerStatsVal.default.applyCalls calls

/-- Number of calls in the sequence carrying status code `c`, as `Int`. -/
def codeCount (calls : List UpdateCall) (c : Nat) : Int :=
  (calls.countP (fun u => decide (u.status_code = c)) : Int)

/-- An operation on the shared `RequestStats`: a producer `update_stats`
call, or one reporting cycle (`RequestStats::to_stats_and_reset`).
The host list and probe outcomes do not touch the counter state, so the
snapshot operation is determined by the clock reading. -/
inductive StatsOp
  | update (request_time response_time : Int) (status_code : Nat) (result : RequestResult)
  | snapshot (now : Int)

/-- Apply one operation to the shared state. -/
def applyOp (s : InnerStats) : StatsOp → InnerStats
  | .update rt pt sc r => s.update_stats rt pt sc r
  | .snapshot now => (RequestStats.to_stats_and_reset s now none (fun _ => none)).2

/-- Apply a sequence of operations. -/
def applyOps (s : InnerStats) (ops : List StatsOp) : InnerStats :=
  ops.foldl applyOp s

/-- Sum of the five mutually exclusive outcome-category counters. -/
def categorySum (v : InnerStatsVal) : Int :=
  v.successful_requests + v.parse_errors + v.timeout_errors
    + v.connection_errors + v.status_code_error

/-! ### Helper lemmas -/

lemma ratFloor_eq_intFloor (q : ℚ) : q.floor = ⌊q⌋ := by
  rw [Rat.floor_def', Rat.floor_def]

/-- Function `f64Round` agrees with the mathematical description of `f64::round`:
floor of `q + 1/2` for nonnegative `q`, mirrored for negative `q`. -/
lemma f64Round_eq (q : ℚ) : f64Round q = if 0 ≤ q then ⌊q + 1 / 2⌋ else -⌊-q + 1 / 2⌋ := by
  unfold f64Round
  rw [ratFloor_eq_intFloor, ratFloor_eq_intFloor]
  by_cases h : 0 ≤ q
  · rw [if_pos h, if_pos (Rat.num_nonneg.mpr h)]
  · rw [if_neg h, if_neg (fun hn => h (Rat.num_nonneg.mp hn))]

lemma round3_zero : round3 0 = 0 := by
  rw [round3, f64Round_eq]
  norm_num

/-- Rounding to three decimals keeps a value of `[0, 1]` inside `[0, 1]`. -/
lemma round3_bounds {q : ℚ} (h0 : 0 ≤ q) (h1 : q ≤ 1) : 0 ≤ round3 q ∧ round3 q ≤ 1 := by
  have hq : 0 ≤ q * 1000 := by positivity
  rw [round3, f64Round_eq, if_pos hq]
  have hfl : (0 : Int) ≤ ⌊q * 1000 + 1 / 2⌋ := Int.floor_nonneg.mpr (by linarith)
  have hfu : ⌊q * 1000 + 1 / 2⌋ ≤ 1000 := by
    have h1 : ⌊q * 1000 + 1 / 2⌋ ≤ ⌊(2001 : ℚ) / 2⌋ := Int.floor_le_floor (by linarith)
    have h2 : ⌊(2001 : ℚ) / 2⌋ = 1000 := by norm_num
    omega
  constructor
  · have : (0 : ℚ) ≤ (⌊q * 1000 + 1 / 2⌋ : ℚ) := by exact_mod_cast hfl
    positivity
  · rw [div_le_one (by norm_num)]
    exact_mod_cast hfu

lemma alistGet_insert_self {α β : Type} [DecidableEq α] (l : List (α × β)) (k : α) (v : β) :
    alistGet (alistInsert l k v) k = some v := by
  induction l with
  | nil => simp [alistGet, alistInsert]
  | cons p rest ih =>
    by_cases h : p.1 = k
    · simp [alistGet, alistInsert, h]
    · simp [alistGet, alistInsert, h, ih]

lemma alistGet_insert_ne {α β : Type} [DecidableEq α] (l : List (α × β)) (k k' : α) (v : β)
    (h : k ≠ k') : alistGet (alistInsert l k v) k' = alistGet l k' := by
  induction l with
  | nil => simp [alistGet, alistInsert, h]
  | cons p rest ih =>
    by_cases hp : p.1 = k
    · simp [alistGet, alistInsert, hp, h]
    · by_cases hp' : p.1 = k'
      · simp [alistGet, alistInsert, hp, hp', Ne.symm h]
      · simp [alistGet, alistInsert, hp, hp', ih]

lemma mem_alistInsert {α β : Type} [DecidableEq α] (l : List (α × β)) (k : α) (v : β)
    (q : α × β) (hq : q ∈ alistInsert l k v) : q.1 = k ∨ q ∈ l := by
  induction l with
  | nil =>
    simp [alistInsert] at hq
    left
    rw [hq]
  | cons p rest ih =>
    by_cases hp : p.1 = k
    · rw [alistInsert, if_pos hp] at hq
      rcases List.mem_cons.mp hq with h | h
      · left; rw [h]
      · right; exact List.mem_cons_of_mem _ h
    · rw [alistInsert, if_neg hp] at hq
      rcases List.mem_cons.mp hq with h | h
      · right; rw [h]; exact List.mem_cons_self _ _
      · rcases ih h with h1 | h1
        · left; exact h1
        · right; exact List.mem_cons_of_mem _ h1

lemma alistGet_hmIncr_self {α : Type} [DecidableEq α] (l : List (α × Int)) (k : α) :
    alistGet (hmIncr l k) k = some ((alistGet l k).getD 0 + 1) :=
  alistGet_insert_self l k _

lemma alistGet_hmIncr_ne {α : Type} [DecidableEq α] (l : List (α × Int)) (k k' : α)
    (h : k ≠ k') : alistGet (hmIncr l k) k' = alistGet l k' :=
  alistGet_insert_ne l k k' _ h

lemma mem_hmIncr {α : Type} [DecidableEq α] (l : List (α × Int)) (k : α)
    (q : α × Int) (hq : q ∈ hmIncr l k) : q.1 = k ∨ q ∈ l :=
  mem_alistInsert l k _ q hq

/-- Number of calls in a sequence carrying a given outcome, as `Int`. -/
def countResult (calls : List UpdateCall) (r : RequestResult) : Int :=
  (calls.countP (fun u => decide (u.result = r)) : Int)

lemma update_stats_total (s : InnerStatsVal) (rt pt : Int) (sc : Nat) (r : RequestResult) :
    (s.update_stats rt pt sc r).total_requests = s.total_requests + 1 := by
  cases r <;> simp only [InnerStatsVal.update_stats] <;> split <;> rfl

lemma update_stats_latency (s : InnerStatsVal) (rt pt : Int) (sc : Nat) (r : RequestResult) :
    (s.update_stats rt pt sc r).total_latency = s.total_latency + (pt - rt) := by
  cases r <;> simp only [InnerStatsVal.update_stats] <;> split <;> rfl

lemma update_stats_successful (s : InnerStatsVal) (rt pt : Int) (sc : Nat) (r : RequestResult) :
    (s.update_stats rt pt sc r).successful_requests
      = s.successful_requests
        + (if r = .Successful then 1 else 0) + (if r = .SuccessfulAndCache then 1 else 0) := by
  cases r <;> simp only [InnerStatsVal.update_stats] <;> split <;> simp

lemma update_stats_cache (s : InnerStatsVal) (rt pt : Int) (sc : Nat) (r : RequestResult) :
    (s.update_stats rt pt sc r).cache_hit
      = s.cache_hit + (if r = .SuccessfulAndCache then 1 else 0) := by
  cases r <;> simp only [InnerStatsVal.update_stats] <;> split <;> simp

lemma update_stats_parse (s : InnerStatsVal) (rt pt : Int) (sc : Nat) (r : RequestResult) :
    (s.update_stats rt pt sc r).parse_errors
      = s.parse_errors + (if r = .ParseError then 1 else 0) := by
  cases r <;> simp only [InnerStatsVal.update_stats] <;> split <;> simp

lemma update_stats_timeout (s : InnerStatsVal) (rt pt : Int) (sc : Nat) (r : RequestResult) :
    (s.update_stats rt pt sc r).timeout_errors
      = s.timeout_errors + (if r = .TimeoutError then 1 else 0) := by
  cases r <;> simp only [InnerStatsVal.update_stats] <;> split <;> simp

lemma update_stats_connection (s : InnerStatsVal) (rt pt : Int) (sc : Nat) (r : RequestResult) :
    (s.update_stats rt pt sc r).connection_errors
      = s.connection_errors + (if r = .ConnectionError then 1 else 0) := by
  cases r <;> simp only [InnerStatsVal.update_stats] <;> split <;> simp

lemma update_stats_status (s : InnerStatsVal) (rt pt : Int) (sc : Nat) (r : RequestResult) :
    (s.update_stats rt pt sc r).status_code_error
      = s.status_code_error + (if r = .StatusCodeError then 1 else 0) := by
  cases r <;> simp only [InnerStatsVal.update_stats] <;> split <;> simp

lemma update_stats_http (s : InnerStatsVal) (rt pt : Int) (sc : Nat) (r : RequestResult) :
    (s.update_stats rt pt sc r).http_status_codes
      = if sc ≠ 0 then hmIncr s.http_status_codes sc else s.http_status_codes := by
  cases r <;> simp only [InnerStatsVal.update_stats] <;> split <;> simp_all

lemma update_stats_categorySum (s : InnerStatsVal) (rt pt : Int) (sc : Nat)
    (r : RequestResult) :
    categorySum (s.update_stats rt pt sc r) = categorySum s + 1 := by
  unfold categorySum
  rw [update_stats_successful, update_stats_parse, update_stats_timeout,
    update_stats_connection, update_stats_status]
  cases r <;> simp <;> omega

lemma applyCalls_nil (s : InnerStatsVal) : s.applyCalls [] = s := rfl

lemma applyCalls_cons (s : InnerStatsVal) (c : UpdateCall) (cs : List UpdateCall) :
    s.applyCalls (c :: cs)
      = (s.update_stats c.request_time c.response_time c.status_code c.result).applyCalls cs :=
  rfl

/-- Each counter after a sequence of `update_stats` calls is its initial value
plus the number of calls carrying the matching outcome. -/
lemma applyCalls_counts (cs : List UpdateCall) : ∀ s : InnerStatsVal,
    (s.applyCalls cs).total_requests = s.total_requests + cs.length
    ∧ (s.applyCalls cs).successful_requests
        = s.successful_requests + countResult cs .Successful + countResult cs .SuccessfulAndCache
    ∧ (s.applyCalls cs).cache_hit = s.cache_hit + countResult cs .SuccessfulAndCache
    ∧ (s.applyCalls cs).parse_errors = s.parse_errors + countResult cs .ParseError
    ∧ (s.applyCalls cs).timeout_errors = s.timeout_errors + countResult cs .TimeoutError
    ∧ (s.applyCalls cs).connection_errors
        = s.connection_errors + countResult cs .ConnectionError
    ∧ (s.applyCalls cs).status_code_error
        = s.status_code_error + countResult cs .StatusCodeError := by
  induction cs with
  | nil => intro s; simp [applyCalls_nil, countResult]
  | cons c cs ih =>
    intro s
    obtain ⟨h1, h2, h3, h4, h5, h6, h7⟩ :=
      ih (s.update_stats c.request_time c.response_time c.status_code c.result)
    rw [applyCalls_cons]
    refine ⟨?_, ?_, ?_, ?_, ?_, ?_, ?_⟩ <;>
      simp only [h1, h2, h3, h4, h5, h6, h7, countResult, List.countP_cons,
        update_stats_total, update_stats_successful, update_stats_cache,
        update_stats_parse, update_stats_timeout, update_stats_connection,
        update_stats_status] <;>
      cases c.result <;> simp <;> omega

/-- Every call carries exactly one of the six outcomes. -/
lemma countResult_partition (cs : List UpdateCall) :
    countResult cs .Successful + countResult cs .SuccessfulAndCache
      + countResult cs .ParseError + countResult cs .TimeoutError
      + countResult cs .ConnectionError + countResult cs .StatusCodeError
      = cs.length := by
  induction cs with
  | nil => simp [countResult]
  | cons c cs ih =>
    simp only [countResult, List.countP_cons, List.length_cons] at *
    cases c.result <;> simp <;> omega

lemma countResult_nonneg (cs : List UpdateCall) (r : RequestResult) :
    0 ≤ countResult cs r :=
  Int.natCast_nonneg _

lemma codeCount_nil (c : Nat) : codeCount [] c = 0 := rfl

lemma codeCount_cons (u : UpdateCall) (cs : List UpdateCall) (c : Nat) :
    codeCount (u :: cs) c = codeCount cs c + (if u.status_code = c then 1 else 0) := by
  simp only [codeCount, List.countP_cons]
  by_cases h : u.status_code = c <;> simp [h]

lemma codeCount_nonneg (cs : List UpdateCall) (c : Nat) : 0 ≤ codeCount cs c :=
  Int.natCast_nonneg _

/-- The status-code histogram after a call sequence: presence and value of
each nonzero key, relative to the starting histogram. -/
lemma applyCalls_http (cs : List UpdateCall) : ∀ (s : InnerStatsVal) (c : Nat), c ≠ 0 →
    ((alistGet (s.applyCalls cs).http_status_codes c = none
        ↔ alistGet s.http_status_codes c = none ∧ codeCount cs c = 0)
      ∧ (alistGet (s.applyCalls cs).http_status_codes c).getD 0
          = (alistGet s.http_status_codes c).getD 0 + codeCount cs c) := by
  induction cs with
  | nil => intro s c _; simp [applyCalls_nil, codeCount_nil]
  | cons u cs ih =>
    intro s c hc
    obtain ⟨ih1, ih2⟩ :=
      ih (s.update_stats u.request_time u.response_time u.status_code u.result) c hc
    rw [applyCalls_cons]
    rw [update_stats_http] at ih1 ih2
    by_cases hu : u.status_code = 0
    · rw [if_neg (by simp [hu])] at ih1 ih2
      have hne : u.status_code ≠ c := fun h => hc (h ▸ hu.symm ▸ rfl)
      refine ⟨ih1.trans (by rw [codeCount_cons, if_neg hne, add_zero]), ?_⟩
      rw [ih2, codeCount_cons, if_neg hne, add_zero]
    · rw [if_pos (by simp [hu])] at ih1 ih2
      by_cases huc : u.status_code = c
      · subst huc
        rw [alistGet_hmIncr_self] at ih1 ih2
        refine ⟨?_, ?_⟩
        · rw [ih1]
          have h2 : codeCount (u :: cs) u.status_code = codeCount cs u.status_code + 1 := by
            rw [codeCount_cons, if_pos rfl]
          constructor
          · rintro ⟨h, _⟩; exact absurd h (by simp)
          · rintro ⟨_, h⟩
            have := codeCount_nonneg cs u.status_code
            omega
        · rw [ih2, codeCount_cons, if_pos rfl]
          cases h : alistGet s.http_status_codes u.status_code <;> simp [h] <;> ring
      · rw [alistGet_hmIncr_ne _ _ _ huc] at ih1 ih2
        refine ⟨ih1.trans (by rw [codeCount_cons, if_neg huc, add_zero]), ?_⟩
        rw [ih2, codeCount_cons, if_neg huc, add_zero]

/-- No key of the histogram is ever `0`. -/
lemma applyCalls_http_key_ne_zero (cs : List UpdateCall) :
    ∀ (s : InnerStatsVal), (∀ p ∈ s.http_status_codes, p.1 ≠ 0) →
      ∀ p ∈ (s.applyCalls cs).http_status_codes, p.1 ≠ 0 := by
  induction cs with
  | nil => intro s hs; simpa [applyCalls_nil] using hs
  | cons u cs ih =>
    intro s hs
    rw [applyCalls_cons]
    refine ih _ ?_
    intro p hp
    rw [update_stats_http] at hp
    by_cases hu : u.status_code = 0
    · rw [if_neg (by simp [hu])] at hp
      exact hs p hp
    · rw [if_pos (by simp [hu])] at hp
      rcases mem_hmIncr _ _ _ hp with h | h
      · rw [h]; exact hu
      · exact hs p h

lemma toDigitsCore_length_lt (b : Nat) (f : Nat) : ∀ (n : Nat) (ds : List Char),
    ds.length < (Nat.toDigitsCore b (f + 1) n ds).length := by
  induction f with
  | zero =>
    intro n ds
    simp only [Nat.toDigitsCore]
    split <;> simp
  | succ f ih =>
    intro n ds
    simp only [Nat.toDigitsCore]
    split
    · simp
    · calc ds.length < (Nat.digitChar (n % b) :: ds).length := by simp
        _ < _ := ih (n / b) (Nat.digitChar (n % b) :: ds)

/-- Rendering `u16::to_string` of a nonzero status code is never the string `"0"`. -/
lemma repr_ne_zero_string (k : Nat) (hk : k ≠ 0) : Nat.repr k ≠ "0" := by
  intro h
  have hdata : Nat.toDigits 10 k = ['0'] := by
    have := congrArg String.data h
    simpa [Nat.repr, List.asString] using this
  rw [Nat.toDigits] at hdata
  by_cases hdiv : k / 10 = 0
  · have hk10 : k < 10 := by omega
    have hmod : k % 10 = k := Nat.mod_eq_of_lt hk10
    simp only [Nat.toDigitsCore, hdiv, if_true, hmod] at hdata
    have hkd : Nat.digitChar k = '0' := by simpa using hdata
    interval_cases k
    · exact hk rfl
    all_goals exact absurd hkd (by decide)
  · simp only [Nat.toDigitsCore, hdiv, if_false] at hdata
    have hk1 : k ≥ 1 := by omega
    have hlen := toDigitsCore_length_lt 10 (k - 1) (k / 10) [Nat.digitChar (k % 10)]
    rw [show k - 1 + 1 = k by omega, hdata] at hlen
    simp at hlen

lemma alistGet_mem {α β : Type} [DecidableEq α] (l : List (α × β)) (k : α) (v : β)
    (h : alistGet l k = some v) : (k, v) ∈ l := by
  induction l with
  | nil => simp [alistGet] at h
  | cons p rest ih =>
    by_cases hp : p.1 = k
    · rw [alistGet, if_pos hp] at h
      obtain ⟨p1, p2⟩ := p
      obtain rfl : p1 = k := hp
      obtain rfl : p2 = v := Option.some.inj h
      exact List.mem_cons_self _ _
    · rw [alistGet, if_neg hp] at h
      exact List.mem_cons_of_mem _ (ih h)

/-- Lookup in the ping map after the probe loop: every requested host is
present, carrying its probe value; no other host is. -/
lemma buildHostPing_lookup (probe : String → Option Nat) (hosts : List String) (h : String) :
    alistGet (buildHostPing probe hosts) h
      = if h ∈ hosts then some (pingMillis probe h) else none := by
  have key : ∀ (hs : List String) (acc : List (String × ℚ)),
      alistGet (hs.foldl (fun acc host => alistInsert acc host (pingMillis probe host)) acc) h
        = if h ∈ hs then some (pingMillis probe h) else alistGet acc h := by
    intro hs
    induction hs with
    | nil => intro acc; simp
    | cons x rest ih =>
      intro acc
      rw [List.foldl_cons, ih]
      by_cases hrest : h ∈ rest
      · simp [hrest]
      · by_cases hx : h = x
        · subst hx
          simp [hrest, alistGet_insert_self]
        · simp [hrest, hx, alistGet_insert_ne _ _ _ _ (Ne.symm hx)]
  rw [buildHostPing, key hosts []]
  rfl

/-- The report built by one reporting cycle over the counter state reached by
a call sequence from a fresh (or just reset) store: `i` is the store
creation time, `st` the current period start, `e` the snapshot time. -/
def innerReport (calls : List UpdateCall) (i st e : Int) : Stats :=
  ((InnerStats.mk i st (runCalls calls)).to_stats_and_reset e).1

/-- Neither a producer call nor a whole reporting cycle ever touches
`init_time`. -/
lemma applyOp_init_time (s : InnerStats) (op : StatsOp) :
    (applyOp s op).init_time = s.init_time := by
  cases op <;> rfl

lemma applyOps_init_time (ops : List StatsOp) : ∀ s : InnerStats,
    (applyOps s ops).init_time = s.init_time := by
  induction ops with
  | nil => intro s; rfl
  | cons op ops ih =>
    intro s
    rw [applyOps, List.foldl_cons, ← applyOps, ih, applyOp_init_time]

lemma innerReport_def (calls : List UpdateCall) (i st e : Int) :
    innerReport calls i st e
      = ((InnerStats.mk i st (runCalls calls)).to_stats_and_reset e).1 := rfl

lemma to_stats_cache_hit_rate (s : InnerStats) (e : Int) :
    ((s.to_stats_and_reset e).1).cache_hit_rate
      = (if s.base.successful_requests = 0 then 0
         else round3 ((s.base.cache_hit : ℚ) / (s.base.successful_requests : ℚ))) := rfl

lemma to_stats_error_rate (s : InnerStats) (e : Int) :
    ((s.to_stats_and_reset e).1).error_rate
      = round3 (if s.base.total_requests > 0
          then ((s.base.parse_errors + s.base.timeout_errors + s.base.connection_errors
              + s.base.status_code_error : Int) : ℚ) / (s.base.total_requests : ℚ)
          else 0) := rfl

lemma to_stats_average (s : InnerStats) (e : Int) :
    ((s.to_stats_and_reset e).1).average_request_latency
      = Option.map round3 (Option.map (fun q => q / 1000)
          (f64Div (s.base.total_latency : ℚ) (s.base.total_requests : ℚ))) := rfl

/-! ### Claims -/

/-- C1: starting from a fresh or just-reset counter store, after any sequence
of `update_stats` calls the invariant `total_requests = successful_requests +
parse_errors + timeout_errors + connection_errors + status_code_error` holds
(hence after every call, every prefix being such a sequence), with
`total_requests = n` after `n` calls; moreover each single call increments
`total_requests` and the category sum by exactly one, and increments
`cache_hit` exactly on `SuccessfulAndCache`. -/
theorem spec_C1 (calls : List UpdateCall) :
    ((runCalls calls).total_requests = categorySum (runCalls calls)
      ∧ (runCalls calls).total_requests = calls.length)
    ∧ ∀ (s : InnerStatsVal) (c : UpdateCall),
        (s.update_stats c.request_time c.response_time c.status_code c.result).total_requests
          = s.total_requests + 1
        ∧ categorySum (s.update_stats c.request_time c.response_time c.status_code c.result)
            = categorySum s + 1
        ∧ (s.update_stats c.request_time c.response_time c.status_code c.result).successful_requests
            = s.successful_requests
              + (if c.result = RequestResult.Successful then 1 else 0)
              + (if c.result = RequestResult.SuccessfulAndCache then 1 else 0)
        ∧ (s.update_stats c.request_time c.response_time c.status_code c.result).parse_errors
            = s.parse_errors + (if c.result = RequestResult.ParseError then 1 else 0)
        ∧ (s.update_stats c.request_time c.response_time c.status_code c.result).timeout_errors
            = s.timeout_errors + (if c.result = RequestResult.TimeoutError then 1 else 0)
        ∧ (s.update_stats c.request_time c.response_time c.status_code c.result).connection_errors
            = s.connection_errors + (if c.result = RequestResult.ConnectionError then 1 else 0)
        ∧ (s.update_stats c.request_time c.response_time c.status_code c.result).status_code_error
            = s.status_code_error + (if c.result = RequestResult.StatusCodeError then 1 else 0)
        ∧ (s.update_stats c.request_time c.response_time c.status_code c.result).cache_hit
            = s.cache_hit
              + (if c.result = RequestResult.SuccessfulAndCache then 1 else 0) := by
  constructor
  · obtain ⟨h1, h2, _, h4, h5, h6, h7⟩ := applyCalls_counts calls InnerStatsVal.default
    have hp := countResult_partition calls
    rw [← runCalls] at h1 h2 h4 h5 h6 h7
    simp only [InnerStatsVal.default] at h1 h2 h4 h5 h6 h7
    unfold categorySum
    omega
  · intro s c
    exact ⟨update_stats_total s _ _ _ _, update_stats_categorySum s _ _ _ _,
      update_stats_successful s _ _ _ _, update_stats_parse s _ _ _ _,
      update_stats_timeout s _ _ _ _, update_stats_connection s _ _ _ _,
      update_stats_status s _ _ _ _, update_stats_cache s _ _ _ _⟩

/-- C7: a reporting cycle immediately following another reporting cycle, with
no producer call in between, reports zero total requests, zero error rate
and zero cache-hit rate: the reset is idempotent. -/
theorem spec_C7 (s : InnerStats) (e1 e2 : Int)
    (hi1 hi2 : Option (List String × Nat)) (p1 p2 : String → Option Nat) :
    ((RequestStats.to_stats_and_reset
        (RequestStats.to_stats_and_reset s e1 hi1 p1).2 e2 hi2 p2).1).total_requests = 0
    ∧ ((RequestStats.to_stats_and_reset
        (RequestStats.to_stats_and_reset s e1 hi1 p1).2 e2 hi2 p2).1).error_rate = 0
    ∧ ((RequestStats.to_stats_and_reset
        (RequestStats.to_stats_and_reset s e1 hi1 p1).2 e2 hi2 p2).1).cache_hit_rate = 0 := by
  refine ⟨rfl, ?_, ?_⟩ <;>
    simp [RequestStats.to_stats_and_reset, InnerStats.to_stats_and_reset,
      InnerStats.reset, InnerStatsVal.default, round3_zero]

/-- C9: the field `init_time` is fixed at construction and survives every sequence of
producer calls and reporting cycles; a cycle at time `now` reports
`time_period = (start_time, now)` and advances `start_time` to `now`,
leaving `init_time` alone; `reset` clears only the counters; and the
reported `runtime_duration` is `(now - init_time) / 1000`. -/
theorem spec_C9 (s0 : InnerStats) (ops : List StatsOp) (now : Int)
    (hi : Option (List String × Nat)) (probe : String → Option Nat) :
    (applyOps s0 ops).init_time = s0.init_time
    ∧ (InnerStats.new now).init_time = now
    ∧ ((RequestStats.to_stats_and_reset (applyOps s0 ops) now hi probe).1).time_period
        = ⟨(applyOps s0 ops).start_time, now⟩
    ∧ ((RequestStats.to_stats_and_reset (applyOps s0 ops) now hi probe).2).start_time = now
    ∧ ((RequestStats.to_stats_and_reset (applyOps s0 ops) now hi probe).2).init_time
        = (applyOps s0 ops).init_time
    ∧ ((RequestStats.to_stats_and_reset (applyOps s0 ops) now hi probe).1).runtime_duration
        = i64Div (now - (applyOps s0 ops).init_time) 1000
    ∧ (∀ s : InnerStats, (InnerStats.reset s).init_time = s.init_time
        ∧ (InnerStats.reset s).start_time = s.start_time
        ∧ (InnerStats.reset s).base = InnerStatsVal.default) := by
  refine ⟨applyOps_init_time ops s0, rfl, rfl, rfl, rfl, rfl, ?_⟩
  intro s
  exact ⟨rfl, rfl, rfl⟩

/-- C4: the host-probe step is total (the embedded loop body handles the
probe oracle failure case itself, so nothing propagates to the caller) and
every requested host gets an entry in the report ping map: the elapsed
connect time in microseconds divided by 1000 on success, the timeout value
divided by 1000 on any failure; other hosts failing cannot remove it. -/
theorem spec_C4 (probe : String → Option Nat) (hosts : List String) (port : Nat)
    (st : InnerStats) (e : Int) (host : String) (h : host ∈ hosts) :
    alistGet ((RequestStats.to_stats_and_reset st e (some (hosts, port))
        probe).1).hosts_ping_delay host
      = some (pingMillis probe host)
    ∧ (∀ d : Nat, probe host = some d → pingMillis probe host = (d : ℚ) / 1000)
    ∧ (probe host = none
        → pingMillis probe host = (probeTimeoutMicros : ℚ) / 1000) := by
  refine ⟨?_, ?_, ?_⟩
  · have hping : ((RequestStats.to_stats_and_reset st e (some (hosts, port))
        probe).1).hosts_ping_delay = buildHostPing probe hosts := rfl
    rw [hping, buildHostPing_lookup, if_pos h]
  · intro d hd
    rw [pingMillis, hd]
  · intro hd
    rw [pingMillis, hd]

/-- Witness for C4 at a concrete input: one host whose probe fails. -/
theorem spec_C4_witness :
    "a" ∈ ["a"]
    ∧ alistGet ((RequestStats.to_stats_and_reset (InnerStats.new 0) 0
          (some (["a"], 80)) (fun _ => none)).1).hosts_ping_delay "a"
        = some (pingMillis (fun _ => none) "a") :=
  ⟨by decide,
    (spec_C4 (fun _ => none) ["a"] 80 (InnerStats.new 0) 0 "a" (by decide)).1⟩

/-- C10: the probe timeout is the hard-coded 3 seconds (3,000,000 µs),
independent of configuration and caller input, so a host that fails to
parse or connect is reported with a ping delay of exactly 3000 ms. -/
theorem spec_C10 (probe : String → Option Nat) (hosts : List String) (port : Nat)
    (st : InnerStats) (e : Int) (host : String) (h1 : host ∈ hosts)
    (h2 : probe host = none) :
    probeTimeoutMicros = 3000000
    ∧ alistGet ((RequestStats.to_stats_and_reset st e (some (hosts, port))
          probe).1).hosts_ping_delay host
        = some (3000 : ℚ) := by
  refine ⟨rfl, ?_⟩
  have hping : ((RequestStats.to_stats_and_reset st e (some (hosts, port))
      probe).1).hosts_ping_delay = buildHostPing probe hosts := rfl
  rw [hping, buildHostPing_lookup, if_pos h1, pingMillis, h2]
  norm_num [probeTimeoutMicros]

/-- Witness for C10 at a concrete input: an unreachable host is reported at
3000 ms. -/
theorem spec_C10_witness :
    "h" ∈ ["h", "g"]
    ∧ ((fun _ => none : String → Option Nat) "h" = none)
    ∧ alistGet ((RequestStats.to_stats_and_reset (InnerStats.new 5) 9
          (some (["h", "g"], 443)) (fun _ => none)).1).hosts_ping_delay "h"
        = some (3000 : ℚ) :=
  ⟨by decide, rfl,
    (spec_C10 (fun _ => none) ["h", "g"] 443 (InnerStats.new 5) 9 "h"
      (by decide) rfl).2⟩

/-- C5: the key `"0"` never appears in the report histogram, and any nonzero
status code supplied `N > 0` times appears in the report histogram (the
string-keyed copy of the counter histogram) with count exactly `N`; at the
counter level the lookup of a nonzero code is `some N` when `N > 0` and
absent when `N = 0`. -/
theorem spec_C5 (calls : List UpdateCall) (c : Nat) (i st e : Int) (hc : c ≠ 0) :
    (∀ n : Int, ("0", n) ∉ (innerReport calls i st e).http_status_codes)
    ∧ alistGet (runCalls calls).http_status_codes c
        = (if codeCount calls c = 0 then none else some (codeCount calls c))
    ∧ (codeCount calls c ≠ 0
        → (Nat.repr c, codeCount calls c) ∈ (innerReport calls i st e).http_status_codes) := by
  have hmap : (innerReport calls i st e).http_status_codes
      = (runCalls calls).http_status_codes.map (fun p => (Nat.repr p.1, p.2)) := rfl
  have hkeys : ∀ p ∈ (runCalls calls).http_status_codes, p.1 ≠ 0 :=
    applyCalls_http_key_ne_zero calls InnerStatsVal.default (by simp [InnerStatsVal.default])
  obtain ⟨hnone, hval⟩ := applyCalls_http calls InnerStatsVal.default c hc
  rw [← runCalls] at hnone hval
  have hdef : alistGet InnerStatsVal.default.http_status_codes c = none := rfl
  rw [hdef] at hnone hval
  simp only [Option.getD_none, zero_add, true_and] at hnone hval
  have hlookup : alistGet (runCalls calls).http_status_codes c
      = (if codeCount calls c = 0 then none else some (codeCount calls c)) := by
    by_cases h0 : codeCount calls c = 0
    · rw [if_pos h0]
      exact hnone.mpr h0
    · rw [if_neg h0]
      cases hg : alistGet (runCalls calls).http_status_codes c with
      | none => exact absurd (hnone.mp hg) h0
      | some m =>
        rw [hg] at hval
        simp only [Option.getD_some] at hval
        rw [hval]
  refine ⟨?_, hlookup, ?_⟩
  · intro n hn
    rw [hmap] at hn
    obtain ⟨p, hp, hpe⟩ := List.mem_map.mp hn
    have : Nat.repr p.1 = "0" := congrArg Prod.fst hpe
    exact repr_ne_zero_string p.1 (hkeys p hp) this
  · intro h0
    rw [hmap]
    refine List.mem_map.mpr ⟨(c, codeCount calls c), ?_, rfl⟩
    apply alistGet_mem
    rw [hlookup, if_neg h0]

/-- Witness for C5 at a concrete input: code 500 supplied twice. -/
theorem spec_C5_witness :
    (500 : Nat) ≠ 0
    ∧ alistGet (runCalls [⟨0, 3, 500, .StatusCodeError⟩, ⟨1, 2, 500,
          .Successful⟩]).http_status_codes 500
        = (if codeCount [⟨0, 3, 500, .StatusCodeError⟩, ⟨1, 2, 500,
            .Successful⟩] 500 = 0 then none
           else some (codeCount [⟨0, 3, 500, .StatusCodeError⟩, ⟨1, 2, 500,
            .Successful⟩] 500)) :=
  ⟨by decide,
    (spec_C5 [⟨0, 3, 500, .StatusCodeError⟩, ⟨1, 2, 500, .Successful⟩] 500 0 0 0
      (by decide)).2.1⟩

/-- C6: the reported error rate is the four error counters over
`total_requests`, rounded to three decimals, when `total_requests > 0`, and
`0.0` when `total_requests = 0`; it always lies in `[0, 1]`. -/
theorem spec_C6 (calls : List UpdateCall) (i st e : Int) :
    (innerReport calls i st e).error_rate
      = (if (runCalls calls).total_requests > 0
         then round3 ((((runCalls calls).parse_errors + (runCalls calls).timeout_errors
              + (runCalls calls).connection_errors
              + (runCalls calls).status_code_error : Int) : ℚ)
            / ((runCalls calls).total_requests : ℚ))
         else 0)
    ∧ 0 ≤ (innerReport calls i st e).error_rate
    ∧ (innerReport calls i st e).error_rate ≤ 1 := by
  obtain ⟨h1, h2, h3, h4, h5, h6, h7⟩ := applyCalls_counts calls InnerStatsVal.default
  rw [← runCalls] at h1 h2 h3 h4 h5 h6 h7
  simp only [InnerStatsVal.default, zero_add] at h1 h2 h3 h4 h5 h6 h7
  have hp := countResult_partition calls
  have hn1 := countResult_nonneg calls .Successful
  have hn2 := countResult_nonneg calls .SuccessfulAndCache
  have hn3 := countResult_nonneg calls .ParseError
  have hn4 := countResult_nonneg calls .TimeoutError
  have hn5 := countResult_nonneg calls .ConnectionError
  have hn6 := countResult_nonneg calls .StatusCodeError
  have hfield : (innerReport calls i st e).error_rate
      = round3 (if (runCalls calls).total_requests > 0
          then (((runCalls calls).parse_errors + (runCalls calls).timeout_errors
              + (runCalls calls).connection_errors
              + (runCalls calls).status_code_error : Int) : ℚ)
            / ((runCalls calls).total_requests : ℚ)
          else 0) := rfl
  by_cases ht : (runCalls calls).total_requests > 0
  · have herr0 : (0 : Int) ≤ (runCalls calls).parse_errors + (runCalls calls).timeout_errors
        + (runCalls calls).connection_errors + (runCalls calls).status_code_error := by
      omega
    have herrle : (runCalls calls).parse_errors + (runCalls calls).timeout_errors
        + (runCalls calls).connection_errors + (runCalls calls).status_code_error
        ≤ (runCalls calls).total_requests := by
      omega
    have htQ : (0 : ℚ) < ((runCalls calls).total_requests : ℚ) := by exact_mod_cast ht
    have hq0 : (0 : ℚ) ≤ (((runCalls calls).parse_errors + (runCalls calls).timeout_errors
        + (runCalls calls).connection_errors
        + (runCalls calls).status_code_error : Int) : ℚ)
          / ((runCalls calls).total_requests : ℚ) := by
      apply div_nonneg _ (le_of_lt htQ)
      exact_mod_cast herr0
    have hq1 : (((runCalls calls).parse_errors + (runCalls calls).timeout_errors
        + (runCalls calls).connection_errors
        + (runCalls calls).status_code_error : Int) : ℚ)
          / ((runCalls calls).total_requests : ℚ) ≤ 1 := by
      rw [div_le_one htQ]
      exact_mod_cast herrle
    obtain ⟨hb0, hb1⟩ := round3_bounds hq0 hq1
    rw [hfield, if_pos ht, if_pos ht]
    exact ⟨rfl, hb0, hb1⟩
  · rw [hfield, if_neg ht, if_neg ht, round3_zero]
    norm_num

/-- C8: invariant `cache_hit ≤ successful_requests` always, with equality exactly when
every successful outcome was `SuccessfulAndCache`; the reported
cache-hit rate is `cache_hit / successful_requests` rounded to three
decimals (`0.0` when there were no successes) and always lies in `[0, 1]`. -/
theorem spec_C8 (calls : List UpdateCall) (i st e : Int) :
    (runCalls calls).cache_hit ≤ (runCalls calls).successful_requests
    ∧ ((runCalls calls).cache_hit = (runCalls calls).successful_requests
        ↔ ∀ u ∈ calls, (u.result = RequestResult.Successful
            ∨ u.result = RequestResult.SuccessfulAndCache)
          → u.result = RequestResult.SuccessfulAndCache)
    ∧ (innerReport calls i st e).cache_hit_rate
        = (if (runCalls calls).successful_requests = 0 then 0
           else round3 (((runCalls calls).cache_hit : ℚ)
              / ((runCalls calls).successful_requests : ℚ)))
    ∧ 0 ≤ (innerReport calls i st e).cache_hit_rate
    ∧ (innerReport calls i st e).cache_hit_rate ≤ 1 := by
  obtain ⟨h1, h2, h3, _, _, _, _⟩ := applyCalls_counts calls InnerStatsVal.default
  rw [← runCalls] at h1 h2 h3
  simp only [InnerStatsVal.default, zero_add] at h1 h2 h3
  have hn1 := countResult_nonneg calls .Successful
  have hn2 := countResult_nonneg calls .SuccessfulAndCache
  have hfield : (innerReport calls i st e).cache_hit_rate
      = (if (runCalls calls).successful_requests = 0 then 0
         else round3 (((runCalls calls).cache_hit : ℚ)
            / ((runCalls calls).successful_requests : ℚ))) := rfl
  refine ⟨by omega, ?_, hfield, ?_⟩
  · have hiff1 : (runCalls calls).cache_hit = (runCalls calls).successful_requests
        ↔ countResult calls .Successful = 0 := by
      constructor <;> intro hh <;> omega
    have hiff2 : countResult calls .Successful = 0
        ↔ ∀ u ∈ calls, ¬ u.result = RequestResult.Successful := by
      rw [countResult]
      rw [show ((calls.countP (fun u => decide (u.result = RequestResult.Successful))
          : Nat) : Int) = 0 ↔ calls.countP
            (fun u => decide (u.result = RequestResult.Successful)) = 0 by
        exact_mod_cast Iff.rfl]
      rw [List.countP_eq_zero]
      simp
    rw [hiff1, hiff2]
    constructor
    · intro h u hu hor
      rcases hor with h1 | h1
      · exact absurd h1 (h u hu)
      · exact h1
    · intro h u hu hS
      have h2 := h u hu (Or.inl hS)
      rw [hS] at h2
      exact absurd h2 (by decide)
  · by_cases hs : (runCalls calls).successful_requests = 0
    · rw [hfield, if_pos hs]
      norm_num
    · have hsQ : (0 : ℚ) < ((runCalls calls).successful_requests : ℚ) := by
        have : (0 : Int) < (runCalls calls).successful_requests := by omega
        exact_mod_cast this
      have hq0 : (0 : ℚ) ≤ ((runCalls calls).cache_hit : ℚ)
          / ((runCalls calls).successful_requests : ℚ) := by
        apply div_nonneg _ (le_of_lt hsQ)
        have : (0 : Int) ≤ (runCalls calls).cache_hit := by omega
        exact_mod_cast this
      have hq1 : ((runCalls calls).cache_hit : ℚ)
          / ((runCalls calls).successful_requests : ℚ) ≤ 1 := by
        rw [div_le_one hsQ]
        have : (runCalls calls).cache_hit ≤ (runCalls calls).successful_requests := by omega
        exact_mod_cast this
      obtain ⟨hb0, hb1⟩ := round3_bounds hq0 hq1
      rw [hfield, if_neg hs]
      exact ⟨hb0, hb1⟩

/-- The scenario of spec §8: 7 `Success`, 1 `SuccessCached`, 1 `TimeoutError`,
1 `StatusCodeError` with code 500, each with request time 50 and response
time 100. -/
def scenarioCalls : List UpdateCall :=
  List.replicate 7 ⟨50, 100, 0, .Successful⟩ ++
    [⟨50, 100, 0, .SuccessfulAndCache⟩, ⟨50, 100, 0, .TimeoutError⟩,
      ⟨50, 100, 500, .StatusCodeError⟩]

/-- C2: refuted on the code. A snapshot taken with `total_requests = 0`
computes `total_latency / total_requests` with no zero guard (line 373 of
`src/lib.rs`), i.e. the `f64` division `0.0 / 0.0`, producing NaN — embedded
as `none`, in particular not the value `0` the claim requires — while
`error_rate` and `cache_hit_rate` do carry the zero guard and report `0`. -/
theorem spec_C2 :
    (innerReport [] 0 0 7).total_requests = 0
    ∧ (innerReport [] 0 0 7).error_rate = 0
    ∧ (innerReport [] 0 0 7).cache_hit_rate = 0
    ∧ (innerReport [] 0 0 7).average_request_latency = none
    ∧ ∀ q : ℚ, (innerReport [] 0 0 7).average_request_latency ≠ some q := by
  refine ⟨rfl, ?_, rfl, rfl, ?_⟩
  · have hfield : (innerReport [] 0 0 7).error_rate = round3 0 := rfl
    rw [hfield, round3_zero]
  · intro q
    simp [innerReport, runCalls, applyCalls_nil, InnerStats.to_stats_and_reset,
      InnerStatsVal.default, f64Div]

/-- C3: refuted on the code. On the spec scenario (10 outcomes, response 100,
request 50, so `total_latency = 500` and `total_requests = 10`), the code
divides the per-request average by a further `1000.0` (line 373 of
`src/lib.rs`), so the reported `average_request_latency` is `0.05`, not the
claimed `50`; the remaining scenario fields match the spec. -/
theorem spec_C3 :
    (innerReport scenarioCalls 0 0 0).total_requests = 10
    ∧ (runCalls scenarioCalls).successful_requests = 8
    ∧ (innerReport scenarioCalls 0 0 0).cache_hit = 1
    ∧ (innerReport scenarioCalls 0 0 0).cache_hit_rate = 1 / 8
    ∧ (innerReport scenarioCalls 0 0 0).error_rate = 1 / 5
    ∧ ("500", 1) ∈ (innerReport scenarioCalls 0 0 0).http_status_codes
    ∧ (runCalls scenarioCalls).total_latency = 500
    ∧ (innerReport scenarioCalls 0 0 0).average_request_latency = some (1 / 20)
    ∧ (1 / 20 : ℚ) ≠ 50 := by
  have hrun : runCalls scenarioCalls = ⟨10, 8, 1, 0, 1, 0, 1, [(500, 1)], 500⟩ := by
    decide
  refine ⟨by decide, by decide, by decide, ?_, ?_, by decide, by decide, ?_, by norm_num⟩
  · rw [innerReport_def, to_stats_cache_hit_rate, hrun]
    norm_num [round3, f64Round_eq]
  · rw [innerReport_def, to_stats_error_rate, hrun]
    norm_num [round3, f64Round_eq]
  · rw [innerReport_def, to_stats_average, hrun]
    norm_num [round3, f64Round_eq, f64Div]

end StatsRs
